import Mathlib

/-!
Verification of the pauper-league-cron ingestion pipeline
(`src/PauperBatchLeagues_API.py`) against its specification.

The Python script is shallowly embedded: pages, fetch attempts and the
sink are abstracted into a `World` record of response functions; the
orchestrator loops become structural recursions over the list of date
strings produced by the window generator; side effects (page requests,
sleeps, batch posts) are recorded in an explicit event trace; Python
exceptions are modelled with `Except`, and a `try/except` block is the
`match` that maps `Except.error` back to a continuing value.
-/

namespace PauperCron

/-! ## Strings as character lists: helpers mirroring the Python string ops -/

/-- Everything before the first occurrence of `stop` (the whole list when
`stop` is absent).  Models taking the first component of Python's
`str.split(stop)` / the prefix-cut performed by `urllib` when it removes
the fragment or query part. -/
def cutAt (stop : Char) : List Char → List Char
  | [] => []
  | c :: cs => if c = stop then [] else c :: cutAt stop cs

/-- Model of Python `s.rstrip("/")`: remove all trailing `'/'` characters. -/
def rstripSlash (cs : List Char) : List Char :=
  (cs.reverse.dropWhile (fun c => c = '/')).reverse

/-- Model of `s.split("/")[-1]`: the (possibly empty) suffix after the last
`'/'`, or the whole string when no `'/'` occurs. -/
def lastSegment (cs : List Char) : List Char :=
  (cs.reverse.takeWhile (fun c => c ≠ '/')).reverse

/-- Model of Python `s.split(sep)` for a single-character separator. -/
def splitChar (sep : Char) : List Char → List (List Char)
  | [] => [[]]
  | c :: cs =>
    if c = sep then [] :: splitChar sep cs
    else
      match splitChar sep cs with
      | [] => [[c]]
      | s :: ss => (c :: s) :: ss

/-- Model of Python `s.strip()`: remove leading and trailing whitespace. -/
def pyStrip (s : String) : String :=
  String.mk (((s.toList.dropWhile Char.isWhitespace).reverse.dropWhile
    Char.isWhitespace).reverse)

/-- Model of the Python slice `s[:n]`: the first `n` characters. -/
def pyTruncate (n : Nat) (s : String) : String :=
  String.mk (s.toList.take n)

/-- Model of Python `s.isdigit()` restricted to ASCII text: non-empty and
all decimal digits. -/
def pyIsdigit (cs : List Char) : Bool :=
  !cs.isEmpty && cs.all (fun c => c.isDigit)

/-- Model of Python `int(s)` on an all-digit string. -/
def digitsToNat (cs : List Char) : Nat :=
  cs.foldl (fun a c => a * 10 + (c.toNat - 48)) 0

/-! ## `urllib.parse.urlparse(...).path`

Model of the path component returned by `urlparse`, for the address
shapes this script produces (every call site passes
`"https://www.mtggoldfish.com" + href`): when the string carries an
`https://` scheme, the netloc runs to the first `/`, `?` or `#`, a
mismatched IPv6 bracket in the netloc raises `ValueError` (modelled as
`Except.error`, matching CPython's "Invalid IPv6 URL"), and the path is
what remains before the query and fragment; a string without the scheme
keeps everything before the query/fragment as its path. -/
def urlparsePath (url : List Char) : Except String (List Char) :=
  if url.take 8 = "https://".toList then
    let rest := url.drop 8
    let netloc := rest.takeWhile (fun c => c ≠ '/' && c ≠ '?' && c ≠ '#')
    if (netloc.contains '[') != (netloc.contains ']') then
      Except.error "Invalid IPv6 URL"
    else
      Except.ok (cutAt '?' (cutAt '#' (rest.drop netloc.length)))
  else
    Except.ok (cutAt '?' (cutAt '#' url))

/-! ## `get_deck_id` (source lines 79-89) -/

/-- Body of `get_deck_id` before its `except Exception` handler:
`urlparse(deck_url)`, then `parsed.path.rstrip("/").split("/")[-1]`,
returning `some` of the parsed integer when that last segment `isdigit()`
and `none` otherwise; a `urlparse` exception is the `Except.error` case. -/
def get_deck_id_checked (deck_url : String) : Except String (Option Nat) :=
  match urlparsePath deck_url.toList with
  | Except.error m => Except.error m
  | Except.ok path =>
    let path_last := lastSegment (rstripSlash path)
    if pyIsdigit path_last then Except.ok (some (digitsToNat path_last))
    else Except.ok none

/-- Function `get_deck_id`: the `try/except Exception` wrapper converts any internal
exception into `None`. -/
def get_deck_id (deck_url : String) : Option Nat :=
  match get_deck_id_checked deck_url with
  | Except.ok r => r
  | Except.error _ => none

/-! ## Result-table pages and rows -/

/-- The `<a>` tag found inside a cell: its optional `href` attribute and
its stripped text. -/
structure LinkTag where
  href : Option String
  text : String
deriving DecidableEq, Repr

/-- One `<td>` cell: its stripped text and the first `<a>` tag inside it,
if any. -/
structure Cell where
  text : String
  link : Option LinkTag
deriving DecidableEq, Repr

/-- A parsed page, as the script inspects it:
`table = none` models `soup.find("table", class_="table-tournament")`
returning nothing; `table = some none` models a table without `<tbody>`;
`table = some (some rows)` gives the `<tr>` rows of the body. -/
structure Page where
  table : Option (Option (List (List Cell)))
deriving Repr

/-- League output record (the dict built at source lines 258-265). -/
structure LeagueRecord where
  id : Nat
  event_date : String
  place : String
  deck_name : String
  pilot : String
  deck_url : String
deriving DecidableEq, Repr

/-- Challenge output record (the dict built at source lines 169-176). -/
structure ChallengeRecord where
  deck_id : Nat
  date : String
  place : String
  deck_name : String
  pilot : String
  json_decklist : Option String
deriving DecidableEq, Repr

/-- The site origin prefixed to every extracted `href` (lines 161 and 253). -/
def BASE_ORIGIN : String := "https://www.mtggoldfish.com"

/-- League loop body for one `<tr>` (source lines 240-265): fewer than 3
`<td>` cells drops the row; the texts of the first three cells are
stripped; a missing `<a>`/`href` in the deck-name cell drops the row; the
deck id must derive from the prefixed URL or the row is dropped. -/
def processLeagueRow (date_str : String) (row : List Cell) : Option LeagueRecord :=
  match row with
  | c0 :: c1 :: c2 :: _ =>
    let place := pyStrip c0.text
    let deck_name := pyStrip c1.text
    let pilot_name := pyStrip c2.text
    match c1.link with
    | none => none
    | some a_tag =>
      match a_tag.href with
      | none => none
      | some href =>
        let deck_url := BASE_ORIGIN ++ href
        match get_deck_id deck_url with
        | none => none
        | some deck_id =>
          some ⟨deck_id, date_str, place, deck_name, pilot_name, deck_url⟩
  | _ => none

/-- Challenge loop body for one `<tr>` (source lines 149-176): same
shape checks; the deck name is the link tag's own text here, and the
record stores `json_decklist = None`. -/
def processChallengeRow (date_str : String) (row : List Cell) : Option ChallengeRecord :=
  match row with
  | c0 :: c1 :: c2 :: _ =>
    let place := pyStrip c0.text
    match c1.link with
    | none => none
    | some deck_link_tag =>
      match deck_link_tag.href with
      | none => none
      | some href =>
        let deck_name := pyStrip deck_link_tag.text
        let deck_url := BASE_ORIGIN ++ href
        match get_deck_id deck_url with
        | none => none
        | some deck_id =>
          let pilot_name := pyStrip c2.text
          some ⟨deck_id, date_str, place, deck_name, pilot_name, none⟩
  | _ => none

/-- The league batch for one date: the loop appends exactly the rows the
body accepts, in order. -/
def leaguePayload (date_str : String) (rows : List (List Cell)) : List LeagueRecord :=
  rows.filterMap (processLeagueRow date_str)

/-- The challenge batch for one date. -/
def challengePayload (date_str : String) (rows : List (List Cell)) : List ChallengeRecord :=
  rows.filterMap (processChallengeRow date_str)

/-! ## Spec-side notion for claim C3

The spec derives the deck id from "the last non-empty path segment". -/

/-- The last element of a list of strings, or the empty string. -/
def lastOrNil : List (List Char) → List Char
  | [] => []
  | [s] => s
  | _ :: s :: rest => lastOrNil (s :: rest)

/-- Modelled from the spec: "take the last non-empty path segment" — split
the path on `'/'`, discard empty segments, take the last (or the empty
string when every segment is empty).  Stated independently of the code's
`rstrip`/`split` combination so the two derivations can be compared. -/
def specLastNonEmptySegment (path : List Char) : List Char :=
  lastOrNil ((splitChar '/' path).filter (fun s => !s.isEmpty))

/-! ## Date windows (source lines 198-205 and 303-314)

Dates are modelled as integer day numbers; adding one day is `+ 1`.
Both windows are produced by a `while current <= end` loop that
appends `current` and steps one day, embedded here with the iteration
count `(end + 1 - start).toNat` as structural fuel. -/

/-- Runs `k` iterations of `while current <= end: emit current; current += 1`,
starting at `s`. -/
def dateRangeGo : Nat → Int → List Int
  | 0, _ => []
  | k + 1, s => s :: dateRangeGo k (s + 1)

/-- The list of day numbers visited by `while current <= end` when
starting at `s`: empty when `e < s`, else `s, s+1, …, e`. -/
def dateRange (s e : Int) : List Int :=
  dateRangeGo (e + 1 - s).toNat s

/-- League window (lines 198-205): `start_date = today - 6 days`,
`end_date = today`. -/
def leagueWindow (today : Int) : List Int :=
  dateRange (today - 6) today

/-- Challenge window (lines 303-314): `challenge_start = challenge_end -
(CHALLENGE_LOOKBACK_DAYS - 1) days`, `challenge_end = today`. -/
def challengeWindow (lookback : Int) (today : Int) : List Int :=
  dateRange (today - (lookback - 1)) today

/-- Default of `CHALLENGE_LOOKBACK_DAYS` (line 46). -/
def DEFAULT_CHALLENGE_LOOKBACK_DAYS : Int := 15

/-! ## The external world and the event trace -/

/-- Outcome of one `driver.get(url)` attempt: success, a
`TimeoutException`, or any other `WebDriverException` (carrying its
message). -/
inductive FetchOutcome
  | ok
  | timeout
  | err (msg : String)
deriving DecidableEq, Repr

/-- A sink response: HTTP status plus body text, or a raised
`requests` exception. -/
structure PostResponse where
  status : Nat
  text : String
deriving DecidableEq, Repr

/-- Result of `requests.post`: an HTTP response or a raised exception. -/
inductive PostOutcome
  | resp (r : PostResponse)
  | exn (msg : String)
deriving DecidableEq, Repr

/-- The environment the script interacts with: what each `driver.get`
attempt on a given URL does (indexed by the 0-based attempt number),
what `driver.page_source` parses to after a successful load of a URL,
and what the sink answers to the batch posted for a given endpoint and
date. -/
structure World where
  attempts : String → Nat → FetchOutcome
  page : String → Page
  post : String → String → PostOutcome

/-- Observable actions, in order: a `driver.get` attempt, a
`time.sleep(seconds)`, and a `requests.post` to an endpoint for a date. -/
inductive Event
  | getAttempt (url : String) (attempt : Nat)
  | sleep (seconds : Nat)
  | post (endpoint : String) (date : String)
deriving DecidableEq, Repr

/-! ## `load_page_with_retries` (source lines 94-113)

The loop `while retry_count < max_retries` runs at most `max_retries`
`driver.get` attempts; `remaining = max_retries - retry_count` is the
structural fuel.  A successful `get` sleeps `sleep_after` (always 2.0
at the call sites) and returns `True`; a `TimeoutException` increments
the count and, when attempts remain, sleeps 1 and retries, otherwise
returns `False`; any other exception from `driver.get` is not caught
here and propagates (`Except.error`). -/
def loadAttempts (w : World) (url : String) : Nat → Nat → List Event × Except String Bool
  | 0, _ => ([], Except.ok false)
  | remaining + 1, attempt =>
    match w.attempts url attempt with
    | FetchOutcome.ok =>
      ([Event.getAttempt url attempt, Event.sleep 2], Except.ok true)
    | FetchOutcome.err m =>
      ([Event.getAttempt url attempt], Except.error m)
    | FetchOutcome.timeout =>
      if remaining = 0 then ([Event.getAttempt url attempt], Except.ok false)
      else
        let rest := loadAttempts w url remaining (attempt + 1)
        (Event.getAttempt url attempt :: Event.sleep 1 :: rest.1, rest.2)

/-- Function `load_page_with_retries(driver, url, max_retries, sleep_after=2.0)`. -/
def load_page_with_retries (w : World) (url : String) (max_retries : Nat) :
    List Event × Except String Bool :=
  loadAttempts w url max_retries 0

/-! ## Challenge URL templates (source lines 39-43)

Each template string holds exactly one `{date}` placeholder;
`template.format(date=date_str)` is the concatenation
`before ++ date_str ++ after`. -/

/-- A URL template, split at its single date placeholder. -/
structure UrlTemplate where
  before : String
  after : String
deriving DecidableEq, Repr

/-- Python `template.format(date=date_str)`. -/
def UrlTemplate.format (t : UrlTemplate) (date_str : String) : String :=
  t.before ++ date_str ++ t.after

/-- The fixed, ordered template list for challenge pages. -/
def TOURNAMENT_URL_TEMPLATES : List UrlTemplate :=
  [⟨"https://www.mtggoldfish.com/tournament/pauper-challenge-32-", "#online"⟩,
   ⟨"https://www.mtggoldfish.com/tournament/pauper-challenge-32-special-", "#online"⟩,
   ⟨"https://www.mtggoldfish.com/tournament/pauper-showcase-challenge-", "#online"⟩]

/-! ## `scrape_challenge_for_date` (source lines 118-183) -/

/-- What one template contributes inside the `for template in
TOURNAMENT_URL_TEMPLATES` loop: an uncaught exception from the page
load, a `continue` (load failed, no table, no tbody, no rows, or no
valid records), or an early `return records` on a non-empty record
list. -/
inductive TemplateStep
  | raised (msg : String)
  | skip
  | found (records : List ChallengeRecord)
deriving DecidableEq, Repr

/-- One iteration of the template loop (lines 123-180): load the page
with `max_retries=2`; on failure continue; find the tournament table,
its tbody and its rows, continuing when any is missing or empty; build
the records; return them only when non-empty. -/
def tryTemplate (w : World) (date_str : String) (t : UrlTemplate) :
    List Event × TemplateStep :=
  let url := t.format date_str
  match load_page_with_retries w url 2 with
  | (evs, Except.error m) => (evs, TemplateStep.raised m)
  | (evs, Except.ok false) => (evs, TemplateStep.skip)
  | (evs, Except.ok true) =>
    match (w.page url).table with
    | none => (evs, TemplateStep.skip)
    | some none => (evs, TemplateStep.skip)
    | some (some rows) =>
      if rows.isEmpty then (evs, TemplateStep.skip)
      else
        let records := challengePayload date_str rows
        if records.isEmpty then (evs, TemplateStep.skip)
        else (evs, TemplateStep.found records)

/-- The template loop over a template list: the first `found` wins and
its records are returned; a raised exception propagates; falling off
the end returns `[]`. -/
def scrapeTemplates (w : World) (date_str : String) :
    List UrlTemplate → List Event × Except String (List ChallengeRecord)
  | [] => ([], Except.ok [])
  | t :: ts =>
    match tryTemplate w date_str t with
    | (evs, TemplateStep.raised m) => (evs, Except.error m)
    | (evs, TemplateStep.found records) => (evs, Except.ok records)
    | (evs, TemplateStep.skip) =>
      let rest := scrapeTemplates w date_str ts
      (evs ++ rest.1, rest.2)

/-- Function `scrape_challenge_for_date(driver, date_str)`. -/
def scrape_challenge_for_date (w : World) (date_str : String) :
    List Event × Except String (List ChallengeRecord) :=
  scrapeTemplates w date_str TOURNAMENT_URL_TEMPLATES

/-! ## The batch sink (source lines 267-282 and 326-345) -/

/-- Endpoint for league batches (line 24), from the configured base URL. -/
def leagueEndpoint (base : String) : String :=
  base ++ "/rest/v1/pauper_league_results_insert"

/-- Endpoint for challenge batches (line 27). -/
def challengeEndpoint (base : String) : String :=
  base ++ "/rest/v1/challenge_deck_results_insert"

/-- The check `resp.status_code in (200, 201, 204)` (lines 276 and 335). -/
def insertStatusOk (status : Nat) : Bool :=
  status == 200 || status == 201 || status == 204

/-- Outcome of one batch submission of `n` records, as both insert
blocks classify it: success (counter grows by `n`), a non-listed status
(logged with `resp.text[:500]`), or a raised `requests` exception. -/
inductive SubmitResult
  | okN (n : Nat)
  | failed (status : Nat) (bodyTrunc : String)
  | raised (msg : String)
deriving DecidableEq, Repr

/-- The shared `requests.post` + status check: on a response, success
iff the status is one of 200/201/204, otherwise the failure carries
`resp.text[:500]`; a transport exception is `raised`. -/
def submitBatch (w : World) (endpoint date_str : String) (n : Nat) : SubmitResult :=
  match w.post endpoint date_str with
  | PostOutcome.resp r =>
    if insertStatusOk r.status then SubmitResult.okN n
    else SubmitResult.failed r.status (pyTruncate 500 r.text)
  | PostOutcome.exn m => SubmitResult.raised m

/-- Rows added to the inserted counter by a submission outcome. -/
def insertedDelta : SubmitResult → Nat
  | SubmitResult.okN n => n
  | _ => 0

/-! ## League orchestrator (source lines 198-298) -/

/-- The league page URL for a date (line 207). -/
def leagueUrl (date_str : String) : String :=
  "https://www.mtggoldfish.com/tournament/pauper-league-" ++ date_str ++ "#online"

/-- How the `try` block of one league date ends, when no exception
escapes it: the page load returned `False` (a bare `continue`, skipping
the trailing `time.sleep(1)`); the table or tbody was missing
(`time.sleep(1)` then `continue`); the payload was empty; or a batch
was submitted with the given outcome. -/
inductive LeagueStep
  | fetchFailed
  | noTable
  | noTbody
  | noRows
  | submitted (r : SubmitResult) (n : Nat)
deriving DecidableEq, Repr

/-- The `try` block of one league date (lines 213-284): load the page,
find table/tbody, build the payload with the row loop, and when the
payload is non-empty post it to the league endpoint.  `Except.error`
models an exception leaving the block — a non-timeout `driver.get`
error out of `load_page_with_retries`, or a raised `requests.post`
(both land in the date-level `except` clauses). -/
def leagueDateBody (w : World) (base date_str : String) :
    List Event × Except String LeagueStep :=
  let url := leagueUrl date_str
  match load_page_with_retries w url 2 with
  | (evs, Except.error m) => (evs, Except.error m)
  | (evs, Except.ok false) => (evs, Except.ok LeagueStep.fetchFailed)
  | (evs, Except.ok true) =>
    match (w.page url).table with
    | none => (evs, Except.ok LeagueStep.noTable)
    | some none => (evs, Except.ok LeagueStep.noTbody)
    | some (some rows) =>
      let payload := leaguePayload date_str rows
      if payload.isEmpty then (evs, Except.ok LeagueStep.noRows)
      else
        let ep := leagueEndpoint base
        let evs2 := evs ++ [Event.post ep date_str]
        match submitBatch w ep date_str payload.length with
        | SubmitResult.raised m => (evs2, Except.error m)
        | SubmitResult.okN n2 =>
          (evs2, Except.ok (LeagueStep.submitted (SubmitResult.okN n2) payload.length))
        | SubmitResult.failed st bd =>
          (evs2, Except.ok (LeagueStep.submitted (SubmitResult.failed st bd) payload.length))

/-- One league date at the orchestrator boundary (lines 205-294): the
`except` clauses catch every exception from the body, the
no-table/no-tbody branches sleep 1 before their `continue`, all paths
other than a failed page load reach a `time.sleep(1)` before the next
date, and the counter grows only on a successful insert. -/
def processLeagueDate (w : World) (base date_str : String) : List Event × Nat :=
  match leagueDateBody w base date_str with
  | (evs, Except.error _) => (evs ++ [Event.sleep 1], 0)
  | (evs, Except.ok LeagueStep.fetchFailed) => (evs, 0)
  | (evs, Except.ok LeagueStep.noTable) => (evs ++ [Event.sleep 1], 0)
  | (evs, Except.ok LeagueStep.noTbody) => (evs ++ [Event.sleep 1], 0)
  | (evs, Except.ok LeagueStep.noRows) => (evs ++ [Event.sleep 1], 0)
  | (evs, Except.ok (LeagueStep.submitted r _)) =>
    (evs ++ [Event.sleep 1], insertedDelta r)

/-- The league `while` loop over its date list: per-date traces are
concatenated and `total_league_rows_inserted` accumulates.  No
exception escapes a league date, so the loop always completes. -/
def runLeague (w : World) (base : String) : List String → List Event × Nat
  | [] => ([], 0)
  | d :: ds =>
    let this := processLeagueDate w base d
    let rest := runLeague w base ds
    (this.1 ++ rest.1, this.2 + rest.2)

/-! ## Challenge orchestrator (source lines 303-348) -/

/-- One challenge date (lines 314-348): `scrape_challenge_for_date` is
called outside any `try`, so an exception it raises propagates
(`Except.error`) and aborts the run; an empty record list sleeps 1 and
continues; otherwise the batch is posted inside a `try` whose `except`
clauses catch both `RequestException` and any other exception, and the
loop sleeps 1 before the next date. -/
def processChallengeDate (w : World) (base date_str : String) :
    List Event × Except String Nat :=
  match scrape_challenge_for_date w date_str with
  | (evs, Except.error m) => (evs, Except.error m)
  | (evs, Except.ok []) => (evs ++ [Event.sleep 1], Except.ok 0)
  | (evs, Except.ok records) =>
    let ep := challengeEndpoint base
    let evs2 := evs ++ [Event.post ep date_str]
    let r := submitBatch w ep date_str records.length
    (evs2 ++ [Event.sleep 1], Except.ok (insertedDelta r))

/-- The challenge `while` loop: stops with an error as soon as a date's
scrape raises, otherwise accumulates `total_challenge_rows_inserted`. -/
def runChallenges (w : World) (base : String) :
    List String → List Event × Except String Nat
  | [] => ([], Except.ok 0)
  | d :: ds =>
    match processChallengeDate w base d with
    | (evs, Except.error m) => (evs, Except.error m)
    | (evs, Except.ok n) =>
      match runChallenges w base ds with
      | (evs2, Except.error m) => (evs ++ evs2, Except.error m)
      | (evs2, Except.ok n2) => (evs ++ evs2, Except.ok (n + n2))

/-! ## Setup and top level (source lines 17-21 and 188-358) -/

/-- The environment configuration read at lines 17-18. -/
structure Config where
  supabase_url : Option String
  supabase_anon_key : Option String

/-- Python truthiness test `not SUPABASE_URL`: unset or empty. -/
def falsyEnv : Option String → Bool
  | none => true
  | some s => s.isEmpty

/-- The check `if not SUPABASE_URL or not SUPABASE_ANON_KEY` (line 20). -/
def configMissing (c : Config) : Bool :=
  falsyEnv c.supabase_url || falsyEnv c.supabase_anon_key

/-- The module-level setup check: raises `ValueError` before anything
else runs when a required variable is missing. -/
def checkConfig (c : Config) : Except String Unit :=
  if configMissing c then
    Except.error "Missing required environment variables: SUPABASE_URL and/or SUPABASE_ANON_KEY"
  else Except.ok ()

/-- The whole script on given league and challenge date windows: the
setup check, then the league loop (which always completes), then the
challenge loop; `main`'s own `except Exception` re-raises, so an error
out of the challenge loop terminates the process.  Returns the two
inserted-row totals of the final summary. -/
def runScript (c : Config) (w : World) (leagueDates challengeDates : List String) :
    Except String (Nat × Nat) :=
  match checkConfig c with
  | Except.error m => Except.error m
  | Except.ok _ =>
    let base := c.supabase_url.getD ""
    let league := runLeague w base leagueDates
    match runChallenges w base challengeDates with
    | (_, Except.error m) => Except.error m
    | (_, Except.ok n2) => Except.ok (league.2, n2)

/-! ## Path-segment lemmas: the code's `rstrip("/").split("/")[-1]` and
the spec's "last non-empty path segment" agree -/

theorem splitChar_ne_nil (sep : Char) (cs : List Char) : splitChar sep cs ≠ [] := by
  induction cs with
  | nil => simp [splitChar]
  | cons c cs ih =>
    by_cases hc : c = sep
    · simp [splitChar, hc]
    · simp only [splitChar, if_neg hc]
      cases h : splitChar sep cs <;> simp

theorem lastOrNil_append (l : List (List Char)) (a : List Char) :
    lastOrNil (l ++ [a]) = a := by
  induction l with
  | nil => rfl
  | cons s l ih =>
    cases l with
    | nil => rfl
    | cons t l2 => simpa [lastOrNil] using ih

theorem splitChar_append_sep (sep : Char) (xs : List Char) :
    splitChar sep (xs ++ [sep]) = splitChar sep xs ++ [[]] := by
  induction xs with
  | nil => simp [splitChar]
  | cons c cs ih =>
    by_cases hc : c = sep
    · simp [splitChar, hc, ih]
    · simp only [List.cons_append, splitChar, if_neg hc]
      cases h : splitChar sep cs with
      | nil => exact absurd h (splitChar_ne_nil sep cs)
      | cons s ss => simp [ih, h]

theorem splitChar_append_ne (sep c : Char) (hc : ¬c = sep) (xs : List Char) :
    splitChar sep (xs ++ [c]) =
      (splitChar sep xs).dropLast ++ [lastOrNil (splitChar sep xs) ++ [c]] := by
  induction xs with
  | nil => simp [splitChar, if_neg hc, lastOrNil]
  | cons d cs ih =>
    by_cases hd : d = sep
    · simp only [List.cons_append, splitChar, if_pos hd]
      cases h : splitChar sep cs with
      | nil => exact absurd h (splitChar_ne_nil sep cs)
      | cons s ss => cases ss <;> simp [ih, h, lastOrNil]
    · simp only [List.cons_append, splitChar, if_neg hd]
      cases h : splitChar sep cs with
      | nil => exact absurd h (splitChar_ne_nil sep cs)
      | cons s ss =>
        cases ss with
        | nil => simp [ih, h, lastOrNil]
        | cons t ts => simp [ih, h, lastOrNil]

theorem lastOrNil_splitChar (sep : Char) (p : List Char) :
    lastOrNil (splitChar sep p) = (p.reverse.takeWhile (fun x => x ≠ sep)).reverse := by
  induction p using List.reverseRecOn with
  | nil => rfl
  | append_singleton xs c ih =>
    by_cases hc : c = sep
    · subst hc
      rw [splitChar_append_sep, lastOrNil_append]
      simp
    · rw [splitChar_append_ne sep c hc, lastOrNil_append, ih]
      simp [hc]

/-- The spec's "last non-empty path segment" and the code's
`path.rstrip("/").split("/")[-1]` always coincide. -/
theorem specLastNonEmptySegment_eq_code (p : List Char) :
    specLastNonEmptySegment p = lastSegment (rstripSlash p) := by
  induction p using List.reverseRecOn with
  | nil => rfl
  | append_singleton xs c ih =>
    by_cases hc : c = '/'
    · subst hc
      have h1 : specLastNonEmptySegment (xs ++ ['/']) = specLastNonEmptySegment xs := by
        simp [specLastNonEmptySegment, splitChar_append_sep, List.filter_append]
      have h2 : rstripSlash (xs ++ ['/']) = rstripSlash xs := by
        simp [rstripSlash]
      rw [h1, h2]
      exact ih
    · have h1 : specLastNonEmptySegment (xs ++ [c]) =
          lastOrNil (splitChar '/' xs) ++ [c] := by
        rw [specLastNonEmptySegment, splitChar_append_ne '/' c hc, List.filter_append]
        have hne : (lastOrNil (splitChar '/' xs) ++ [c]).isEmpty = false := by
          cases lastOrNil (splitChar '/' xs) <;> rfl
        simp [List.filter, hne, lastOrNil_append]
      have h2 : rstripSlash (xs ++ [c]) = xs ++ [c] := by
        simp [rstripSlash, hc]
      have h3 : lastSegment (xs ++ [c]) =
          (xs.reverse.takeWhile (fun x => x ≠ '/')).reverse ++ [c] := by
        rw [lastSegment]
        simp [hc]
      rw [h1, h2, h3, lastOrNil_splitChar]

/-! ## Date-window lemmas -/

theorem dateRangeGo_eq_map (k : Nat) :
    ∀ s : Int, dateRangeGo k s = (List.range k).map (fun i : Nat => s + (i : Int)) := by
  induction k with
  | zero => intro s; rfl
  | succ k ih =>
    intro s
    rw [dateRangeGo, ih (s + 1), List.range_succ_eq_map, List.map_cons, List.map_map]
    congr 1
    · norm_num
    · apply List.map_congr_left
      intro i _
      simp only [Function.comp_apply]
      push_cast
      ring

theorem dateRange_eq_map (s e : Int) :
    dateRange s e = (List.range (e + 1 - s).toNat).map (fun i : Nat => s + (i : Int)) :=
  dateRangeGo_eq_map _ s

theorem dateRangeGo_getLast (k : Nat) :
    ∀ s : Int, (dateRangeGo (k + 1) s).getLast? = some (s + k) := by
  induction k with
  | zero =>
    intro s
    have h1 : dateRangeGo 1 s = [s] := rfl
    rw [h1]
    simp
  | succ k ih =>
    intro s
    have h1 : dateRangeGo (k + 2) s = s :: dateRangeGo (k + 1) (s + 1) := rfl
    have h2 : ∃ t rest, dateRangeGo (k + 1) (s + 1) = t :: rest := ⟨s + 1, _, rfl⟩
    obtain ⟨t, rest, ht⟩ := h2
    rw [h1, ht, List.getLast?_cons_cons, ← ht, ih (s + 1)]
    congr 1
    push_cast
    ring

/-! ## Exception-flow lemmas -/

/-- Unfolding equation for one iteration of the retry loop. -/
theorem loadAttempts_succ (w : World) (url : String) (r a : Nat) :
    loadAttempts w url (r + 1) a =
      match w.attempts url a with
      | FetchOutcome.ok => ([Event.getAttempt url a, Event.sleep 2], Except.ok true)
      | FetchOutcome.err m => ([Event.getAttempt url a], Except.error m)
      | FetchOutcome.timeout =>
        if r = 0 then ([Event.getAttempt url a], Except.ok false)
        else
          let rest := loadAttempts w url r (a + 1)
          (Event.getAttempt url a :: Event.sleep 1 :: rest.1, rest.2) := rfl

/-- When no `driver.get` attempt on `url` raises a non-timeout error,
`load_page_with_retries`'s loop returns a boolean instead of
propagating an exception, whatever the retry budget and attempt
counter. -/
theorem loadAttempts_ok (w : World) (url : String)
    (h : ∀ k m, w.attempts url k ≠ FetchOutcome.err m) :
    ∀ r a, ∃ evs b, loadAttempts w url r a = (evs, Except.ok b) := by
  intro r
  induction r with
  | zero => intro a; exact ⟨[], false, rfl⟩
  | succ r ih =>
    intro a
    cases hatt : w.attempts url a with
    | ok =>
      refine ⟨[Event.getAttempt url a, Event.sleep 2], true, ?_⟩
      rw [loadAttempts_succ, hatt]
    | timeout =>
      cases r with
      | zero =>
        refine ⟨[Event.getAttempt url a], false, ?_⟩
        rw [loadAttempts_succ, hatt]
        rfl
      | succ r2 =>
        obtain ⟨evs, b, hrec⟩ := ih (a + 1)
        refine ⟨Event.getAttempt url a :: Event.sleep 1 :: evs, b, ?_⟩
        rw [loadAttempts_succ, hatt]
        simp [hrec]
    | err m => exact absurd hatt (h a m)

/-- Under the same condition, a template iteration never raises. -/
theorem tryTemplate_not_raised (w : World) (d : String) (t : UrlTemplate)
    (h : ∀ k m, w.attempts (t.format d) k ≠ FetchOutcome.err m) :
    ∀ m, (tryTemplate w d t).2 ≠ TemplateStep.raised m := by
  intro m
  obtain ⟨evs, b, hload⟩ := loadAttempts_ok w (t.format d) h 2 0
  simp only [tryTemplate, load_page_with_retries]
  rw [hload]
  cases b
  · simp
  · cases htable : (w.page (t.format d)).table with
    | none => simp [htable]
    | some tb =>
      cases tb with
      | none => simp [htable]
      | some rows =>
        simp only [htable]
        by_cases hrows : rows.isEmpty
        · simp [hrows]
        · simp only [hrows]
          by_cases hrec : (challengePayload d rows).isEmpty
          · simp [hrec]
          · simp [hrec]

/-- Scraping a date never raises when none of its template URLs ever
meets a non-timeout `driver.get` error. -/
theorem scrapeTemplates_ok (w : World) (d : String) (ts : List UrlTemplate)
    (h : ∀ t ∈ ts, ∀ k m, w.attempts (t.format d) k ≠ FetchOutcome.err m) :
    ∃ evs rs, scrapeTemplates w d ts = (evs, Except.ok rs) := by
  induction ts with
  | nil => exact ⟨[], [], rfl⟩
  | cons t ts ih =>
    have ht : ∀ k m, w.attempts (t.format d) k ≠ FetchOutcome.err m :=
      h t (List.mem_cons_self t ts)
    have hts : ∀ t2 ∈ ts, ∀ k m, w.attempts (t2.format d) k ≠ FetchOutcome.err m :=
      fun t2 ht2 => h t2 (List.mem_cons_of_mem t ht2)
    obtain ⟨evs2, rs2, hrec⟩ := ih hts
    rcases htt : tryTemplate w d t with ⟨evs, step⟩
    cases step with
    | raised m =>
      have := tryTemplate_not_raised w d t ht m
      rw [htt] at this
      exact absurd rfl this
    | skip =>
      refine ⟨evs ++ evs2, rs2, ?_⟩
      simp only [scrapeTemplates]
      rw [htt]
      simp [hrec]
    | found rs =>
      refine ⟨evs, rs, ?_⟩
      simp only [scrapeTemplates]
      rw [htt]

/-- One challenge date completes (no uncaught exception) when its
template URLs never meet a non-timeout `driver.get` error: sink
failures and sink exceptions are caught inside the loop. -/
theorem processChallengeDate_ok (w : World) (base d : String)
    (h : ∀ t ∈ TOURNAMENT_URL_TEMPLATES, ∀ k m,
      w.attempts (t.format d) k ≠ FetchOutcome.err m) :
    ∃ evs n, processChallengeDate w base d = (evs, Except.ok n) := by
  obtain ⟨evs, rs, hscrape⟩ := scrapeTemplates_ok w d TOURNAMENT_URL_TEMPLATES h
  rw [processChallengeDate, scrape_challenge_for_date, hscrape]
  cases rs with
  | nil => exact ⟨evs ++ [Event.sleep 1], 0, rfl⟩
  | cons r rest =>
    refine ⟨(evs ++ [Event.post (challengeEndpoint base) d]) ++ [Event.sleep 1],
      insertedDelta (submitBatch w (challengeEndpoint base) d (r :: rest).length), rfl⟩

/-- Templates whose iterations all `continue` contribute nothing to the
result of the template loop. -/
theorem scrapeTemplates_skip_append (w : World) (d : String) (pre : List UrlTemplate)
    (hpre : ∀ t ∈ pre, (tryTemplate w d t).2 = TemplateStep.skip) (l : List UrlTemplate) :
    (scrapeTemplates w d (pre ++ l)).2 = (scrapeTemplates w d l).2 := by
  induction pre with
  | nil => rfl
  | cons t pre ih =>
    have ht := hpre t (List.mem_cons_self t pre)
    simp only [List.cons_append, scrapeTemplates]
    rcases htt : tryTemplate w d t with ⟨evs, step⟩
    rw [htt] at ht
    simp only at ht
    subst ht
    simp [ih (fun t2 h2 => hpre t2 (List.mem_cons_of_mem t h2))]

/-- The challenge loop completes whenever every date in it satisfies
the clean-fetch condition. -/
theorem runChallenges_ok (w : World) (base : String) (ds : List String)
    (h : ∀ d ∈ ds, ∀ t ∈ TOURNAMENT_URL_TEMPLATES, ∀ k m,
      w.attempts (t.format d) k ≠ FetchOutcome.err m) :
    ∃ evs n, runChallenges w base ds = (evs, Except.ok n) := by
  induction ds with
  | nil => exact ⟨[], 0, rfl⟩
  | cons d ds ih =>
    obtain ⟨evs, n, hd⟩ :=
      processChallengeDate_ok w base d (h d (List.mem_cons_self d ds))
    obtain ⟨evs2, n2, hrec⟩ := ih (fun d2 hd2 => h d2 (List.mem_cons_of_mem d hd2))
    refine ⟨evs ++ evs2, n + n2, ?_⟩
    simp only [runChallenges]
    rw [hd]
    simp [hrec]

/-! ## Concrete fixtures

Small worlds and rows used to instantiate the theorems below on
concrete inputs. -/

/-- Modelled from the spec: "a non-empty result table is present" —
the recognized table exists, has a body, and the body has at least one
row.  Used to compare the spec's winning condition for a challenge
template against the code's. -/
def specNonEmptyResultTable (p : Page) : Bool :=
  match p.table with
  | some (some (_ :: _)) => true
  | _ => false

/-- A fetched page on which no tournament table is found. -/
def noTablePage : Page := ⟨none⟩

/-- A deck link with a site-relative target. -/
def linkFix : LinkTag := ⟨some "/deck/123456", "Mono Red Goblins"⟩

def cellPlace : Cell := ⟨"1st", none⟩

def cellDeck : Cell := ⟨"Mono Red Goblins", some linkFix⟩

def cellPilot : Cell := ⟨"alice", none⟩

/-- A well-formed result row. -/
def rowFix : List Cell := [cellPlace, cellDeck, cellPilot]

/-- A deck link whose target is already an absolute URL. -/
def linkAbs : LinkTag := ⟨some "https://example.com/x/5", "D"⟩

def rowAbs : List Cell := [⟨"1st", none⟩, ⟨"D", some linkAbs⟩, ⟨"al", none⟩]

/-- A row with only two populated cells. -/
def shortRowFix : List Cell := [⟨"1st", none⟩, ⟨"x", none⟩]

/-- A valid challenge row whose deck id is 123. -/
def validChallengeRow : List Cell :=
  [⟨"1st", none⟩, ⟨"Deck", some ⟨some "/deck/123", "Deck"⟩⟩, ⟨"bob", none⟩]

/-- The record `validChallengeRow` normalizes to. -/
def chalRecFix : ChallengeRecord := ⟨123, "2024-03-10", "1st", "Deck", "bob", none⟩

def tmpl1 : UrlTemplate := TOURNAMENT_URL_TEMPLATES.getD 0 ⟨"", ""⟩

def tmpl2 : UrlTemplate := TOURNAMENT_URL_TEMPLATES.getD 1 ⟨"", ""⟩

/-- A world where every fetch succeeds, no page has a tournament table
and the sink answers 200. -/
def wClean : World :=
  { attempts := fun _ _ => FetchOutcome.ok
    page := fun _ => noTablePage
    post := fun _ _ => PostOutcome.resp ⟨200, ""⟩ }

/-- A world where every `driver.get` attempt times out. -/
def wTimeoutAll : World :=
  { attempts := fun _ _ => FetchOutcome.timeout
    page := fun _ => noTablePage
    post := fun _ _ => PostOutcome.resp ⟨200, ""⟩ }

/-- A world where every `driver.get` raises a non-timeout
`WebDriverException`. -/
def wErrNet : World :=
  { attempts := fun _ _ => FetchOutcome.err "connection refused"
    page := fun _ => noTablePage
    post := fun _ _ => PostOutcome.resp ⟨202, "accepted"⟩ }

/-- A world whose sink answers 202 Accepted to every batch. -/
def w202 : World :=
  { attempts := fun _ _ => FetchOutcome.ok
    page := fun _ => noTablePage
    post := fun _ _ => PostOutcome.resp ⟨202, "accepted"⟩ }

/-- A world where the first challenge template's page for 2024-03-10
has a non-empty result table whose single row is too short to be
valid, while the second template's page has one valid row. -/
def wC2 : World :=
  { attempts := fun _ _ => FetchOutcome.ok
    page := fun url =>
      if url = tmpl1.format "2024-03-10" then ⟨some (some [shortRowFix])⟩
      else if url = tmpl2.format "2024-03-10" then ⟨some (some [validChallengeRow])⟩
      else noTablePage
    post := fun _ _ => PostOutcome.resp ⟨200, ""⟩ }

/-- A world where loading the first challenge template's page for
2024-03-10 raises a non-timeout error. -/
def wErrChal : World :=
  { attempts := fun url _ =>
      if url = tmpl1.format "2024-03-10" then FetchOutcome.err "net down"
      else FetchOutcome.ok
    page := fun _ => noTablePage
    post := fun _ _ => PostOutcome.resp ⟨200, ""⟩ }

/-- A world where the league page for 2024-03-04 times out on every
attempt and the league page for 2024-03-05 loads but has no table. -/
def wC9 : World :=
  { attempts := fun url _ =>
      if url = leagueUrl "2024-03-04" then FetchOutcome.timeout
      else FetchOutcome.ok
    page := fun _ => noTablePage
    post := fun _ _ => PostOutcome.resp ⟨200, ""⟩ }

/-- A complete configuration. -/
def cfgFix : Config := ⟨some "https://sb.example", some "anon-key"⟩

/-- A configuration missing `SUPABASE_URL`. -/
def cfgMissingFix : Config := ⟨none, some "anon-key"⟩

/-! ## Claims -/

/-- C5: for any value of today, the league window is exactly the 7
consecutive dates from today minus 6 days through today inclusive, and
the challenge window is exactly the `CHALLENGE_LOOKBACK_DAYS` (default
15) consecutive dates ending at today inclusive; both windows are
listed, and hence processed, strictly oldest-to-newest. -/
theorem C5_date_windows (t L : Int) (hL : 1 ≤ L) :
    leagueWindow t = (List.range 7).map (fun i : Nat => t - 6 + (i : Int)) ∧
    (leagueWindow t).length = 7 ∧
    (leagueWindow t).Pairwise (· < ·) ∧
    (leagueWindow t).getLast? = some t ∧
    challengeWindow L t =
      (List.range L.toNat).map (fun i : Nat => t - (L - 1) + (i : Int)) ∧
    ((challengeWindow L t).length : Int) = L ∧
    (challengeWindow L t).Pairwise (· < ·) ∧
    (challengeWindow L t).getLast? = some t := by
  have h7 : (t + 1 - (t - 6)).toNat = 7 := by omega
  have hLn : (t + 1 - (t - (L - 1))).toNat = L.toNat := by omega
  have hlg : leagueWindow t = (List.range 7).map (fun i : Nat => t - 6 + (i : Int)) := by
    rw [leagueWindow, dateRange_eq_map, h7]
  have hch : challengeWindow L t =
      (List.range L.toNat).map (fun i : Nat => t - (L - 1) + (i : Int)) := by
    rw [challengeWindow, dateRange_eq_map, hLn]
  refine ⟨hlg, ?_, ?_, ?_, hch, ?_, ?_, ?_⟩
  · rw [hlg]; simp
  · rw [hlg]
    refine List.Pairwise.map _ ?_ (List.pairwise_lt_range 7)
    intro a b hab
    omega
  · rw [leagueWindow, dateRange, h7, show (7 : Nat) = 6 + 1 from rfl,
      dateRangeGo_getLast 6 (t - 6)]
    congr 1
    omega
  · rw [hch]; simp; omega
  · rw [hch]
    refine List.Pairwise.map _ ?_ (List.pairwise_lt_range L.toNat)
    intro a b hab
    omega
  · obtain ⟨k, hk⟩ : ∃ k, L.toNat = k + 1 := ⟨L.toNat - 1, by omega⟩
    rw [challengeWindow, dateRange, hLn, hk, dateRangeGo_getLast k]
    congr 1
    omega

/-- Witness for C5 at today = 0 and the default lookback 15. -/
theorem C5_date_windows_witness :
    leagueWindow 0 = [-6, -5, -4, -3, -2, -1, 0] ∧
    challengeWindow DEFAULT_CHALLENGE_LOOKBACK_DAYS 0 =
      [-14, -13, -12, -11, -10, -9, -8, -7, -6, -5, -4, -3, -2, -1, 0] := by
  have h := C5_date_windows 0 DEFAULT_CHALLENGE_LOOKBACK_DAYS (by norm_num [DEFAULT_CHALLENGE_LOOKBACK_DAYS])
  refine ⟨?_, ?_⟩
  · rw [h.1]; decide
  · rw [h.2.2.2.2.1]; decide

/-- C4 (amended): on timeout-class failures the page load is retried up
to the fixed ceiling of 2 attempts with a 1-second delay between them
and, on exhausting retries, returns `False` to the caller instead of
raising; but on a non-timeout `WebDriverException` the exception
propagates to the caller immediately, without retry — it is not
converted into a returned failure. -/
theorem C4_retry_policy (w : World) (url : String) :
    (w.attempts url 0 = FetchOutcome.timeout → w.attempts url 1 = FetchOutcome.timeout →
      load_page_with_retries w url 2 =
        ([Event.getAttempt url 0, Event.sleep 1, Event.getAttempt url 1],
          Except.ok false)) ∧
    (∀ m, w.attempts url 0 = FetchOutcome.err m →
      load_page_with_retries w url 2 = ([Event.getAttempt url 0], Except.error m)) ∧
    (∀ m, w.attempts url 0 = FetchOutcome.timeout → w.attempts url 1 = FetchOutcome.err m →
      load_page_with_retries w url 2 =
        ([Event.getAttempt url 0, Event.sleep 1, Event.getAttempt url 1],
          Except.error m)) := by
  have e0 : load_page_with_retries w url 2 = loadAttempts w url (1 + 1) 0 := rfl
  refine ⟨?_, ?_, ?_⟩
  · intro h0 h1
    rw [e0, loadAttempts_succ, h0]
    show (Event.getAttempt url 0 :: Event.sleep 1 :: (loadAttempts w url 1 1).1,
      (loadAttempts w url 1 1).2) = _
    rw [show (1 : Nat) = 0 + 1 from rfl, loadAttempts_succ, h1]
    rfl
  · intro m h0
    rw [e0, loadAttempts_succ, h0]
  · intro m h0 h1
    rw [e0, loadAttempts_succ, h0]
    show (Event.getAttempt url 0 :: Event.sleep 1 :: (loadAttempts w url 1 1).1,
      (loadAttempts w url 1 1).2) = _
    rw [show (1 : Nat) = 0 + 1 from rfl, loadAttempts_succ, h1]

/-- Witness for C4: a page that times out on both attempts yields a
returned `False`, with both attempts in the trace. -/
theorem C4_retry_policy_witness :
    load_page_with_retries wTimeoutAll "u" 2 =
      ([Event.getAttempt "u" 0, Event.sleep 1, Event.getAttempt "u" 1],
        Except.ok false) :=
  (C4_retry_policy wTimeoutAll "u").1 rfl rfl

/-- Counterexample for C4 as stated: a non-timeout transport failure
does not return a failure result — the exception propagates out of
`load_page_with_retries` (the `Except.error` outcome), after a single
attempt. -/
theorem C4_retry_policy_cex :
    load_page_with_retries wErrNet "u" 2 =
      ([Event.getAttempt "u" 0], Except.error "connection refused") ∧
    (load_page_with_retries wErrNet "u" 2).2.isOk = false := ⟨rfl, rfl⟩

/-- C6 (amended): a batch submission counts as success — and advances
the inserted-row counter by the batch size — exactly when the response
status is 200, 201 or 204 (not "any 2xx"); on any other status the
failure carries the response body truncated to 500 characters. -/
theorem C6_sink_status (w : World) (ep d body : String) (status n : Nat)
    (hresp : w.post ep d = PostOutcome.resp ⟨status, body⟩) :
    (submitBatch w ep d n = SubmitResult.okN n ↔ insertStatusOk status = true) ∧
    (insertStatusOk status = true ↔ (status = 200 ∨ status = 201 ∨ status = 204)) ∧
    (insertedDelta (submitBatch w ep d n) = if insertStatusOk status then n else 0) ∧
    (insertStatusOk status = false →
      submitBatch w ep d n = SubmitResult.failed status (pyTruncate 500 body)) := by
  have hs : submitBatch w ep d n =
      if insertStatusOk status then SubmitResult.okN n
      else SubmitResult.failed status (pyTruncate 500 body) := by
    rw [submitBatch, hresp]
  refine ⟨?_, ?_, ?_, ?_⟩
  · rw [hs]
    by_cases h : insertStatusOk status = true <;> simp [h]
  · simp [insertStatusOk, or_assoc]
  · rw [hs]
    by_cases h : insertStatusOk status = true <;> simp [h, insertedDelta]
  · intro h
    rw [hs, h]
    simp

/-- Witness for C6: a 200 response is a success and counts the batch
size; a 202 response is handled as a failure carrying the body. -/
theorem C6_sink_status_witness :
    submitBatch wClean (leagueEndpoint "b") "d" 5 = SubmitResult.okN 5 ∧
    insertedDelta (submitBatch wClean (leagueEndpoint "b") "d" 5) = 5 ∧
    submitBatch w202 (challengeEndpoint "b") "d" 3 =
      SubmitResult.failed 202 "accepted" := by
  have h200 := C6_sink_status wClean (leagueEndpoint "b") "d" "" 200 5 rfl
  have h202 := C6_sink_status w202 (challengeEndpoint "b") "d" "accepted" 202 3 rfl
  refine ⟨h200.1.mpr (by decide), ?_, ?_⟩
  · rw [h200.2.2.1]; decide
  · exact h202.2.2.2 (by decide)

/-- Counterexample for C6 as stated: 202 is a 2xx status, yet the code
counts it as a failure and adds nothing to the inserted counter. -/
theorem C6_sink_status_cex :
    (200 ≤ 202 ∧ 202 < 300) ∧
    insertStatusOk 202 = false ∧
    submitBatch w202 "EP" "d" 3 = SubmitResult.failed 202 "accepted" ∧
    insertedDelta (submitBatch w202 "EP" "d" 3) = 0 := by
  refine ⟨by norm_num, by decide, rfl, rfl⟩

/-- C10: the deck-id derivation is total — for every input string it
yields either a natural number or `None`; in particular the
`except Exception` handler maps every internal parsing exception to
`None` instead of letting it reach the caller. -/
theorem C10_get_deck_id_total (s : String) :
    (∀ m, get_deck_id_checked s = Except.error m → get_deck_id s = none) ∧
    (get_deck_id s = none ∨ ∃ n : Nat, get_deck_id s = some n) := by
  constructor
  · intro m hm
    rw [get_deck_id, hm]
  · cases h : get_deck_id s with
    | none => exact Or.inl rfl
    | some n => exact Or.inr ⟨n, rfl⟩

/-- Witness for C10: `urlparse` raises "Invalid IPv6 URL" on
`https://[`, and `get_deck_id` converts that exception to `None`. -/
theorem C10_get_deck_id_total_witness :
    get_deck_id_checked "https://[" = Except.error "Invalid IPv6 URL" ∧
    get_deck_id "https://[" = none :=
  ⟨rfl, (C10_get_deck_id_total "https://[").1 "Invalid IPv6 URL" rfl⟩

/-- C7 (amended): for every accepted row, the stored `deck_url` is the
site's base origin concatenated with the extracted link target — the
prefix is applied unconditionally, also when the target is already
absolute (an absolute target is therefore not left unchanged). -/
theorem C7_deck_url_base (d : String) (c0 c1 c2 : Cell) (rest : List Cell)
    (a : LinkTag) (href : String)
    (hlink : c1.link = some a) (hhref : a.href = some href) :
    ∀ rec, processLeagueRow d (c0 :: c1 :: c2 :: rest) = some rec →
      rec.deck_url = BASE_ORIGIN ++ href := by
  intro rec h
  simp only [processLeagueRow, hlink, hhref] at h
  cases hid : get_deck_id (BASE_ORIGIN ++ href) with
  | none => simp [hid] at h
  | some n =>
    simp only [hid] at h
    cases h
    rfl

/-- Witness for C7: a relative target `/deck/123456` is stored with the
origin prefixed. -/
theorem C7_deck_url_base_witness :
    LeagueRecord.deck_url
        ⟨123456, "2024-03-10", "1st", "Mono Red Goblins", "alice",
          "https://www.mtggoldfish.com/deck/123456"⟩ =
      BASE_ORIGIN ++ "/deck/123456" :=
  C7_deck_url_base "2024-03-10" cellPlace cellDeck cellPilot [] linkFix
    "/deck/123456" rfl rfl _ rfl

/-- Counterexample for C7 as stated: an already-absolute link target is
not left unchanged — the origin is still prefixed, and the stored
`deck_url` differs from the extracted target. -/
theorem C7_deck_url_base_cex :
    processLeagueRow "2024-01-01" rowAbs =
      some ⟨5, "2024-01-01", "1st", "D", "al",
        "https://www.mtggoldfish.comhttps://example.com/x/5"⟩ ∧
    linkAbs.href = some "https://example.com/x/5" ∧
    "https://www.mtggoldfish.comhttps://example.com/x/5" ≠
      "https://example.com/x/5" := by
  refine ⟨rfl, rfl, by decide⟩

/-- C8: a table-body row with fewer than 3 populated cells, or whose
deck-name cell carries no link target, is dropped by both pipelines'
row loops and therefore contributes nothing to any submitted batch;
dropping it is a plain `continue`, never an exception. -/
theorem C8_row_shape (d : String) (row : List Cell)
    (h : row.length < 3 ∨
      ∃ c0 c1 c2 rest, row = c0 :: c1 :: c2 :: rest ∧
        (c1.link = none ∨ ∃ a, c1.link = some a ∧ a.href = none)) :
    processLeagueRow d row = none ∧ processChallengeRow d row = none ∧
    (∀ rows rec, rec ∈ leaguePayload d rows →
      ∃ r ∈ rows, processLeagueRow d r = some rec) ∧
    (∀ rows rec, rec ∈ challengePayload d rows →
      ∃ r ∈ rows, processChallengeRow d r = some rec) := by
  have hmain : processLeagueRow d row = none ∧ processChallengeRow d row = none := by
    rcases h with hlen | ⟨c0, c1, c2, rest, heq, hlink⟩
    · match row, hlen with
      | [], _ => exact ⟨rfl, rfl⟩
      | [_], _ => exact ⟨rfl, rfl⟩
      | [_, _], _ => exact ⟨rfl, rfl⟩
      | _ :: _ :: _ :: _, hlen => simp at hlen; omega
    · subst heq
      rcases hlink with hnone | ⟨a, hsome, hno⟩
      · exact ⟨by simp [processLeagueRow, hnone], by simp [processChallengeRow, hnone]⟩
      · exact ⟨by simp [processLeagueRow, hsome, hno],
          by simp [processChallengeRow, hsome, hno]⟩
  refine ⟨hmain.1, hmain.2, ?_, ?_⟩
  · intro rows rec hmem
    exact List.mem_filterMap.mp hmem
  · intro rows rec hmem
    exact List.mem_filterMap.mp hmem

/-- Witness for C8: a two-cell row is dropped by both row loops. -/
theorem C8_row_shape_witness :
    processLeagueRow "2024-03-10" shortRowFix = none ∧
    processChallengeRow "2024-03-10" shortRowFix = none := by
  have h := C8_row_shape "2024-03-10" shortRowFix (Or.inl (by decide))
  exact ⟨h.1, h.2.1⟩

/-- C3: for a row that passes the shape checks, the deck id is derived
by taking the last non-empty path segment of the deck link's URL path
(proved equal to the code's `rstrip("/").split("/")[-1]`); the row
yields a record with exactly that id iff the segment is a decimal
numeral, and otherwise the row is dropped by both row loops and
excluded from the submitted batch. -/
theorem C3_deck_id_derivation (d : String) (c0 c1 c2 : Cell) (rest : List Cell)
    (a : LinkTag) (href : String) (path : List Char)
    (hlink : c1.link = some a) (hhref : a.href = some href)
    (hpath : urlparsePath (BASE_ORIGIN ++ href).toList = Except.ok path) :
    (get_deck_id (BASE_ORIGIN ++ href) =
      if pyIsdigit (specLastNonEmptySegment path) then
        some (digitsToNat (specLastNonEmptySegment path))
      else none) ∧
    (pyIsdigit (specLastNonEmptySegment path) = true →
      ∃ rec, processLeagueRow d (c0 :: c1 :: c2 :: rest) = some rec ∧
        rec.id = digitsToNat (specLastNonEmptySegment path)) ∧
    (pyIsdigit (specLastNonEmptySegment path) = false →
      processLeagueRow d (c0 :: c1 :: c2 :: rest) = none ∧
      processChallengeRow d (c0 :: c1 :: c2 :: rest) = none ∧
      ∀ pre post,
        leaguePayload d (pre ++ (c0 :: c1 :: c2 :: rest) :: post) =
          leaguePayload d (pre ++ post)) := by
  have hseg := specLastNonEmptySegment_eq_code path
  have hid : get_deck_id (BASE_ORIGIN ++ href) =
      if pyIsdigit (specLastNonEmptySegment path) then
        some (digitsToNat (specLastNonEmptySegment path))
      else none := by
    rw [hseg]
    simp only [get_deck_id, get_deck_id_checked, hpath]
    by_cases hdig : pyIsdigit (lastSegment (rstripSlash path)) = true
    · simp [hdig]
    · simp only [Bool.not_eq_true] at hdig
      simp [hdig]
  refine ⟨hid, ?_, ?_⟩
  · intro hdig
    refine ⟨⟨digitsToNat (specLastNonEmptySegment path), d, pyStrip c0.text,
      pyStrip c1.text, pyStrip c2.text, BASE_ORIGIN ++ href⟩, ?_, rfl⟩
    simp [processLeagueRow, hlink, hhref, hid, hdig]
  · intro hdig
    have hleague : processLeagueRow d (c0 :: c1 :: c2 :: rest) = none := by
      simp [processLeagueRow, hlink, hhref, hid, hdig]
    have hchal : processChallengeRow d (c0 :: c1 :: c2 :: rest) = none := by
      simp [processChallengeRow, hlink, hhref, hid, hdig]
    refine ⟨hleague, hchal, ?_⟩
    intro pre post
    simp [leaguePayload, List.filterMap_append, List.filterMap_cons, hleague]

/-- Witness for C3: the link `/deck/123456` has last non-empty path
segment `123456`, and the row is accepted with that deck id. -/
theorem C3_deck_id_derivation_witness :
    ∃ rec, processLeagueRow "2024-03-10" rowFix = some rec ∧
      rec.id = digitsToNat (specLastNonEmptySegment ("/deck/123456".toList)) := by
  have h := C3_deck_id_derivation "2024-03-10" cellPlace cellDeck cellPilot []
    linkFix "/deck/123456" ("/deck/123456".toList) rfl rfl (by rfl)
  exact h.2.1 (by decide)

/-- C2 (amended): the challenge templates are tried in their fixed
order, and the first template whose page yields a non-empty list of
VALID records wins — its records are returned, and anything listed
after the winner cannot change the result; if every template's
iteration falls through, the result is the empty list, which is not an
error.  (A template whose page has a non-empty result table but only
invalid rows does not win — the loop moves on.) -/
theorem C2_template_priority (w : World) (d : String) (ts : List UrlTemplate) :
    (∀ rs, (scrapeTemplates w d ts).2 = Except.ok rs → rs ≠ [] →
      ∃ pre t rest2, ts = pre ++ t :: rest2 ∧
        (∀ t2 ∈ pre, (tryTemplate w d t2).2 = TemplateStep.skip) ∧
        (tryTemplate w d t).2 = TemplateStep.found rs ∧
        (∀ rest3, (scrapeTemplates w d (pre ++ t :: rest3)).2 = Except.ok rs)) ∧
    ((∀ t ∈ ts, (tryTemplate w d t).2 = TemplateStep.skip) →
      (scrapeTemplates w d ts).2 = Except.ok []) := by
  constructor
  · induction ts with
    | nil =>
      intro rs h hne
      simp only [scrapeTemplates] at h
      exact absurd (Except.ok.inj h).symm hne
    | cons t ts ih =>
      intro rs h hne
      rcases htt : tryTemplate w d t with ⟨evs, step⟩
      simp only [scrapeTemplates] at h
      rw [htt] at h
      cases step with
      | raised m => simp at h
      | found rs0 =>
        simp only at h
        have hrs : rs0 = rs := Except.ok.inj h
        subst hrs
        refine ⟨[], t, ts, rfl, by simp, by rw [htt], ?_⟩
        intro rest3
        simp only [List.nil_append, scrapeTemplates]
        rw [htt]
      | skip =>
        simp only at h
        obtain ⟨pre, t2, rest2, heq, hskips, hfound, hall⟩ := ih rs h hne
        refine ⟨t :: pre, t2, rest2, by rw [heq, List.cons_append], ?_, hfound, ?_⟩
        · intro t3 ht3
          rcases List.mem_cons.mp ht3 with h3 | h3
          · subst h3; rw [htt]
          · exact hskips t3 h3
        · intro rest3
          simp only [List.cons_append, scrapeTemplates]
          rw [htt]
          simp only
          exact hall rest3
  · intro hall
    induction ts with
    | nil => rfl
    | cons t ts ih =>
      have ht := hall t (List.mem_cons_self t ts)
      rcases htt : tryTemplate w d t with ⟨evs, step⟩
      rw [htt] at ht
      simp only at ht
      subst ht
      simp only [scrapeTemplates]
      rw [htt]
      simp only
      exact ih (fun t2 h2 => hall t2 (List.mem_cons_of_mem t h2))

/-- Witness for C2: in `wC2` the first template's page has only an
invalid row, so the second template wins and its single record is
returned; in `wClean` no template finds a table and the date resolves
to the empty list without error. -/
theorem C2_template_priority_witness :
    (∃ pre t rest2, TOURNAMENT_URL_TEMPLATES = pre ++ t :: rest2 ∧
      (∀ t2 ∈ pre, (tryTemplate wC2 "2024-03-10" t2).2 = TemplateStep.skip) ∧
      (tryTemplate wC2 "2024-03-10" t).2 = TemplateStep.found [chalRecFix] ∧
      (∀ rest3,
        (scrapeTemplates wC2 "2024-03-10" (pre ++ t :: rest3)).2 =
          Except.ok [chalRecFix])) ∧
    (scrapeTemplates wClean "2024-03-10" TOURNAMENT_URL_TEMPLATES).2 =
      Except.ok [] := by
  constructor
  · exact (C2_template_priority wC2 "2024-03-10" TOURNAMENT_URL_TEMPLATES).1
      [chalRecFix] (by rfl) (by decide)
  · exact (C2_template_priority wClean "2024-03-10" TOURNAMENT_URL_TEMPLATES).2
      (by decide)

/-- Counterexample for C2 as stated: the first template's fetched page
contains a non-empty result table, yet its records are not returned —
its iteration is a `skip` because every row is invalid, the later
template is still tried, and the returned records are the second
template's. -/
theorem C2_template_priority_cex :
    specNonEmptyResultTable (wC2.page (tmpl1.format "2024-03-10")) = true ∧
    (tryTemplate wC2 "2024-03-10" tmpl1).2 = TemplateStep.skip ∧
    (tryTemplate wC2 "2024-03-10" tmpl2).2 = TemplateStep.found [chalRecFix] ∧
    (scrape_challenge_for_date wC2 "2024-03-10").2 = Except.ok [chalRecFix] := by
  refine ⟨rfl, rfl, rfl, rfl⟩

/-- C1 (amended): a missing required configuration aborts the run
before any date is processed; with the configuration present, the run
completes with a summary for every league-side behaviour (all league
per-date failures, including non-timeout driver errors and sink
exceptions, are caught at the date boundary) and for every challenge
sink behaviour — provided no challenge page load meets a non-timeout
driver error, because such an exception is raised outside any per-date
`try` in the challenge loop and terminates the run. -/
theorem C1_error_isolation (c : Config) (w : World) (lds cds : List String) :
    (configMissing c = true →
      runScript c w lds cds = Except.error
        "Missing required environment variables: SUPABASE_URL and/or SUPABASE_ANON_KEY") ∧
    (configMissing c = false →
      (∀ d ∈ cds, ∀ t ∈ TOURNAMENT_URL_TEMPLATES, ∀ k m,
        w.attempts (t.format d) k ≠ FetchOutcome.err m) →
      ∃ nL nC, runScript c w lds cds = Except.ok (nL, nC)) := by
  constructor
  · intro h
    rw [runScript, checkConfig]
    simp [h]
  · intro h hclean
    obtain ⟨evs, n, hch⟩ := runChallenges_ok w (c.supabase_url.getD "") cds hclean
    refine ⟨(runLeague w (c.supabase_url.getD "") lds).2, n, ?_⟩
    rw [runScript, checkConfig]
    simp only [h, Bool.false_eq_true, if_false, hch]

/-- Witness for C1: with `SUPABASE_URL` unset the run aborts with the
setup error; with full configuration and a world whose fetches never
raise non-timeout errors, the run completes. -/
theorem C1_error_isolation_witness :
    runScript cfgMissingFix wClean ["2024-03-10"] ["2024-03-10"] = Except.error
      "Missing required environment variables: SUPABASE_URL and/or SUPABASE_ANON_KEY" ∧
    ∃ nL nC, runScript cfgFix wClean ["2024-03-10"] ["2024-03-10"] =
      Except.ok (nL, nC) := by
  constructor
  · exact (C1_error_isolation cfgMissingFix wClean ["2024-03-10"] ["2024-03-10"]).1 rfl
  · refine (C1_error_isolation cfgFix wClean ["2024-03-10"] ["2024-03-10"]).2 rfl ?_
    intro d hd t ht k m
    simp [wClean]

/-- Counterexample for C1 as stated: the configuration is complete,
but a non-timeout driver error while fetching a challenge page is not
caught at the date-processing boundary — it propagates through
`scrape_challenge_for_date` and `main` re-raises, terminating the run
below the orchestrator. -/
theorem C1_error_isolation_cex :
    configMissing cfgFix = false ∧
    runScript cfgFix wErrChal [] ["2024-03-10"] = Except.error "net down" := by
  exact ⟨rfl, rfl⟩

/-- C9 (amended): a fixed 1-second pacing delay ends every challenge
date iteration, and every league date iteration except the one whose
page load failed after retries — on that league path the `continue`
skips the pacing sleep and the next date starts immediately. -/
theorem C9_pacing (w : World) (base d : String) :
    ((load_page_with_retries w (leagueUrl d) 2).2 ≠ Except.ok false →
      ((processLeagueDate w base d).1).getLast? = some (Event.sleep 1)) ∧
    ((load_page_with_retries w (leagueUrl d) 2).2 = Except.ok false →
      (processLeagueDate w base d).1 = (load_page_with_retries w (leagueUrl d) 2).1) ∧
    (∀ evs n, processChallengeDate w base d = (evs, Except.ok n) →
      evs.getLast? = some (Event.sleep 1)) := by
  rcases hload : load_page_with_retries w (leagueUrl d) 2 with ⟨evs0, res⟩
  have hbody : leagueDateBody w base d =
      match (evs0, res) with
      | (evs, Except.error m) => (evs, Except.error m)
      | (evs, Except.ok false) => (evs, Except.ok LeagueStep.fetchFailed)
      | (evs, Except.ok true) =>
        match (w.page (leagueUrl d)).table with
        | none => (evs, Except.ok LeagueStep.noTable)
        | some none => (evs, Except.ok LeagueStep.noTbody)
        | some (some rows) =>
          let payload := leaguePayload d rows
          if payload.isEmpty then (evs, Except.ok LeagueStep.noRows)
          else
            let ep := leagueEndpoint base
            let evs2 := evs ++ [Event.post ep d]
            match submitBatch w ep d payload.length with
            | SubmitResult.raised m => (evs2, Except.error m)
            | SubmitResult.okN n2 =>
              (evs2, Except.ok (LeagueStep.submitted (SubmitResult.okN n2) payload.length))
            | SubmitResult.failed st bd =>
              (evs2, Except.ok
                (LeagueStep.submitted (SubmitResult.failed st bd) payload.length)) := by
    rw [leagueDateBody, hload]
  refine ⟨?_, ?_, ?_⟩
  · intro hne
    cases res with
    | error m =>
      rw [processLeagueDate, hbody]
      simp [List.getLast?_concat]
    | ok b =>
      cases b
      · exact absurd rfl hne
      · rw [processLeagueDate, hbody]
        cases htable : (w.page (leagueUrl d)).table with
        | none => simp [htable, List.getLast?_concat]
        | some tb =>
          cases tb with
          | none => simp [htable, List.getLast?_concat]
          | some rows =>
            simp only [htable]
            by_cases hpay : (leaguePayload d rows).isEmpty
            · simp [hpay, List.getLast?_concat]
            · simp only [hpay, Bool.false_eq_true, if_false]
              rcases hsub : submitBatch w (leagueEndpoint base) d
                  (leaguePayload d rows).length with n2 | ⟨s2, b2⟩ | m2
              · show ((evs0 ++ [Event.post (leagueEndpoint base) d]) ++
                  [Event.sleep 1]).getLast? = some (Event.sleep 1)
                exact List.getLast?_concat _
              · show ((evs0 ++ [Event.post (leagueEndpoint base) d]) ++
                  [Event.sleep 1]).getLast? = some (Event.sleep 1)
                exact List.getLast?_concat _
              · show ((evs0 ++ [Event.post (leagueEndpoint base) d]) ++
                  [Event.sleep 1]).getLast? = some (Event.sleep 1)
                exact List.getLast?_concat _
  · intro hfalse
    have : res = Except.ok false := hfalse
    subst this
    rw [processLeagueDate, hbody]
  · intro evs n heq
    rcases hscrape : scrape_challenge_for_date w d with ⟨evs1, r1⟩
    rw [processChallengeDate, hscrape] at heq
    cases r1 with
    | error m => simp at heq
    | ok rs =>
      cases rs with
      | nil =>
        simp only at heq
        have : evs1 ++ [Event.sleep 1] = evs := congrArg Prod.fst heq
        rw [← this]
        simp [List.getLast?_concat]
      | cons r rest =>
        simp only at heq
        have : (evs1 ++ [Event.post (challengeEndpoint base) d]) ++ [Event.sleep 1] =
            evs := congrArg Prod.fst heq
        rw [← this]
        simp [List.getLast?_concat]

/-- Witness for C9: on a clean world both a league date (page loads,
no table) and a challenge date (no template finds a table) end their
iteration with the pacing `time.sleep(1)`. -/
theorem C9_pacing_witness :
    ((processLeagueDate wClean "b" "2024-03-10").1).getLast? =
      some (Event.sleep 1) ∧
    ((processChallengeDate wClean "b" "2024-03-10").1).getLast? =
      some (Event.sleep 1) := by
  have hok : (load_page_with_retries wClean (leagueUrl "2024-03-10") 2).2 =
      Except.ok true := rfl
  constructor
  · exact (C9_pacing wClean "b" "2024-03-10").1 (by rw [hok]; simp)
  · exact (C9_pacing wClean "b" "2024-03-10").2.2
      (processChallengeDate wClean "b" "2024-03-10").1 0 (by rfl)

/-- Counterexample for C9 as stated: in `wC9` the league date
2024-03-04 times out on both attempts, and the next date's first
`driver.get` follows the failed date's last attempt immediately — the
events at positions 2 and 3 of the run trace are two consecutive
`driver.get` calls with no sleep between them. -/
theorem C9_pacing_cex :
    runLeague wC9 "b" ["2024-03-04", "2024-03-05"] =
      ([Event.getAttempt (leagueUrl "2024-03-04") 0, Event.sleep 1,
        Event.getAttempt (leagueUrl "2024-03-04") 1,
        Event.getAttempt (leagueUrl "2024-03-05") 0, Event.sleep 2,
        Event.sleep 1], 0) ∧
    (runLeague wC9 "b" ["2024-03-04", "2024-03-05"]).1[2]? =
      some (Event.getAttempt (leagueUrl "2024-03-04") 1) ∧
    (runLeague wC9 "b" ["2024-03-04", "2024-03-05"]).1[3]? =
      some (Event.getAttempt (leagueUrl "2024-03-05") 0) := by
  refine ⟨rfl, rfl, rfl⟩

end PauperCron
